import Mathlib

/-!
Verification of the lifecycle-orchestration core of a RedisPipeline-based
service bootstrap (`pipeline/RedisPipelineBootstrap.h`).

The C++ class is shallowly embedded: handler instances, consumers, producers
and column-family handles are identified by `Nat` ids; a `shared_ptr` that may
be null is an `Option Nat`; the observable effect of a lifecycle method is the
list of calls it makes, in program order, on its collaborators (a trace of
`Event`s).  Functions whose bodies live in the translation unit that is not
part of the header are modelled from the specification and marked as such in
their doc comments.
-/

namespace SmyteDb

/-! ## DefaultRedisHandlerBuilder (RedisPipelineBootstrap.h, lines 66-91)

A `RedisHandler` instance is identified by the order in which the factory
allocated it; `Option Nat` models a `std::shared_ptr<RedisHandler>` that may
be null (`none`).  The state carries the `singletonHandler_` and `handler_`
members, an allocation counter standing for the factory (each factory call
returns a fresh, non-null instance), and the ordered log of instances that
received `connectionOpened`. -/

structure DefaultRedisHandlerBuilder where
  singletonHandler : Bool
  /-- The `handler_` member; a default-constructed `shared_ptr` is `none`. -/
  handler : Option Nat
  /-- Next id the `redisHandlerFactory_` would allocate; doubles as the count
  of factory invocations made so far. -/
  nextHandlerId : Nat
  /-- Ids that received a `connectionOpened` call, in call order. -/
  connectionOpenedLog : List Nat
  deriving DecidableEq, Repr

/-- The constructor (lines 68-78): when `singletonHandler` is set, the factory
is invoked once (allocating instance `0`) and `CHECK_NOTNULL` passes since the
factory result is non-null; otherwise `handler_` stays default-constructed
(null). -/
def mkDefaultRedisHandlerBuilder (singletonHandler : Bool) : DefaultRedisHandlerBuilder :=
  if singletonHandler then
    { singletonHandler := true, handler := some 0, nextHandlerId := 1, connectionOpenedLog := [] }
  else
    { singletonHandler := false, handler := none, nextHandlerId := 0, connectionOpenedLog := [] }

/-- `newHandler` (lines 80-84):

    std::shared_ptr<RedisHandler> handler =
        singletonHandler_ ? handler_ : redisHandlerFactory_(bootstrap_);
    handler_->connectionOpened();
    return handler;

The local `handler` is the member when in singleton mode and a fresh factory
result otherwise, but `connectionOpened` is invoked through the member
`handler_`.  Dereferencing a null `handler_` is a crash, modelled as `none`;
otherwise the member's id is appended to the notification log and the local
`handler` is returned together with the updated state. -/
def newHandler (b : DefaultRedisHandlerBuilder) : Option (Nat × DefaultRedisHandlerBuilder) :=
  let handler : Option Nat := if b.singletonHandler then b.handler else some b.nextHandlerId
  let b₁ : DefaultRedisHandlerBuilder :=
    if b.singletonHandler then b else { b with nextHandlerId := b.nextHandlerId + 1 }
  match b₁.handler, handler with
  | some m, some v =>
      some (v, { b₁ with connectionOpenedLog := b₁.connectionOpenedLog ++ [m] })
  | _, _ => none

/-- Runs `newHandler` a given number of times, collecting the vended handler
ids; `none` as soon as one call crashes. -/
def runNewHandlers : Nat → DefaultRedisHandlerBuilder → Option (List Nat × DefaultRedisHandlerBuilder)
  | 0, b => some ([], b)
  | k + 1, b =>
    match newHandler b with
    | none => none
    | some (v, b') =>
      match runNewHandlers k b' with
      | none => none
      | some (vs, b'') => some (v :: vs, b'')

theorem newHandler_singleton (b : DefaultRedisHandlerBuilder) (h : Nat)
    (hs : b.singletonHandler = true) (hh : b.handler = some h) :
    newHandler b = some (h, { b with connectionOpenedLog := b.connectionOpenedLog ++ [h] }) := by
  simp [newHandler, hs, hh]

theorem runNewHandlers_singleton (k : Nat) :
    ∀ (b : DefaultRedisHandlerBuilder) (h : Nat),
      b.singletonHandler = true → b.handler = some h →
      runNewHandlers k b =
        some (List.replicate k h,
              { b with connectionOpenedLog := b.connectionOpenedLog ++ List.replicate k h }) := by
  induction k with
  | zero => intro b h _ _; simp [runNewHandlers]
  | succ k ih =>
    intro b h hs hh
    rw [runNewHandlers, newHandler_singleton b h hs hh]
    simp only []
    rw [ih { b with connectionOpenedLog := b.connectionOpenedLog ++ [h] } h hs hh]
    simp [List.replicate_succ]

/-- C9: when the singleton strategy is selected the handler is constructed
exactly once, in the constructor (the factory allocation counter is `1` after
construction and stays `1` across any number of `newHandler` calls), and every
`newHandler` call returns that same instance `0` built at construction. -/
theorem singleton_newHandler_always_same_instance (k : Nat) :
    runNewHandlers k (mkDefaultRedisHandlerBuilder true) =
      some (List.replicate k 0,
            { singletonHandler := true, handler := some 0, nextHandlerId := 1,
              connectionOpenedLog := List.replicate k 0 }) := by
  rw [runNewHandlers_singleton k (mkDefaultRedisHandlerBuilder true) 0 rfl rfl]
  rfl

/-- C1: in the per-connection strategy the very first `newHandler` call
dereferences the null member `handler_` (the code notifies `handler_`, not the
freshly vended local `handler`), so the vended instance never receives
`connectionOpened`; the call crashes instead of returning the handler. -/
theorem newHandler_perConnection_null_deref :
    newHandler (mkDefaultRedisHandlerBuilder false) = none := rfl

/-! ## Lifecycle traces (startOptionalComponents, stopOptionalComponents,
stopRocksDb, stopServer)

The observable behaviour of the lifecycle methods is the sequence of calls
they make on their collaborators.  Consumers are identified by ids, task
queues by their map keys, producers by canonical topic name, column families
by name. -/

/-- One call made by the bootstrap on a collaborator. -/
inductive Event
  | databaseManagerStart
  | taskQueueStart (name : String)
  | consumerInit (id : Nat)
  | consumerStart (id : Nat)
  | httpServerStart
  | httpServerDestroy
  | consumerStop (id : Nat)
  | consumerDestroy (id : Nat)
  | taskQueueDestroy (name : String)
  | producerDestroy (topic : String)
  | databaseManagerDestroy
  | columnFamilyHandleDestroy (name : String)
  | rocksDbDelete
  | serverStop (id : Nat)
  | serverJoin (id : Nat)
  deriving DecidableEq, Repr

/-- The bootstrap's component state (the members of `RedisPipelineBootstrap`
that the lifecycle methods iterate over).  Maps are association lists; a
producer map value is an `Option` since the C++ map stores `shared_ptr`s that
are checked for null before `destroy`. -/
structure RedisPipelineBootstrap where
  databaseManager : Bool
  scheduledTaskQueueMap : List String
  kafkaConsumers : List Nat
  kafkaProducers : List (String × Option Nat)
  embeddedHttpServer : Bool
  columnFamilyMap : List (String × Nat)
  server : Option Nat
  serverEvents : List Event
  deriving DecidableEq, Repr

/-- Trace of `startOptionalComponents` (lines 205-225): database manager
start, task queue starts, then `init` on every consumer, then `start` on every
consumer, then the embedded HTTP server start. -/
def startOptionalComponents (s : RedisPipelineBootstrap) : List Event :=
  (if s.databaseManager then [Event.databaseManagerStart] else [])
    ++ s.scheduledTaskQueueMap.map Event.taskQueueStart
    ++ s.kafkaConsumers.map Event.consumerInit
    ++ s.kafkaConsumers.map Event.consumerStart
    ++ (if s.embeddedHttpServer then [Event.httpServerStart] else [])

/-- Trace of `stopOptionalComponents` (lines 227-249): HTTP endpoint destroy,
`stop` on every consumer, `destroy` on every consumer (one after the other),
task queue destroys, producer destroys (only for non-null producers, per the
`if (producerEntry.second)` guard), database manager destroy. -/
def stopOptionalComponents (s : RedisPipelineBootstrap) : List Event :=
  (if s.embeddedHttpServer then [Event.httpServerDestroy] else [])
    ++ s.kafkaConsumers.map Event.consumerStop
    ++ s.kafkaConsumers.map Event.consumerDestroy
    ++ s.scheduledTaskQueueMap.map Event.taskQueueDestroy
    ++ s.kafkaProducers.filterMap (fun e => e.2.map fun _ => Event.producerDestroy e.1)
    ++ (if s.databaseManager then [Event.databaseManagerDestroy] else [])

/-- Trace of `stopRocksDb` (lines 184-190): destroy every column-family
handle in `columnFamilyMap_`, then `delete rocksDb_`. -/
def stopRocksDb (s : RedisPipelineBootstrap) : List Event :=
  s.columnFamilyMap.map (fun e => Event.columnFamilyHandleDestroy e.1)
    ++ [Event.rocksDbDelete]

/-- Modelled from the spec: the shutdown driver that invokes
`stopOptionalComponents` and then `stopRocksDb` lives in the translation unit
(`RedisPipelineBootstrap.cpp` / the service main), which is not part of the
header; spec section 4.6 fixes the order "destroy health/metrics endpoint →
stop all consumers → destroy all consumers → destroy task queues → destroy
producers → destroy storage manager → close storage engine". -/
def shutdownSequence (s : RedisPipelineBootstrap) : List Event :=
  stopOptionalComponents s ++ stopRocksDb s

/-- Phase number of an event within the startup sequence. -/
def startupPhase : Event → Nat
  | .databaseManagerStart => 0
  | .taskQueueStart _ => 1
  | .consumerInit _ => 2
  | .consumerStart _ => 3
  | .httpServerStart => 4
  | _ => 5

/-- Phase number of an event within the shutdown sequence. -/
def shutdownPhase : Event → Nat
  | .httpServerDestroy => 0
  | .consumerStop _ => 1
  | .consumerDestroy _ => 2
  | .taskQueueDestroy _ => 3
  | .producerDestroy _ => 4
  | .databaseManagerDestroy => 5
  | .columnFamilyHandleDestroy _ => 6
  | .rocksDbDelete => 7
  | _ => 8

/-- A list every element of which has the same phase is sorted by phase. -/
theorem pairwise_phase_of_const {α : Type} (φ : α → Nat) (l : List α) (k : Nat)
    (h : ∀ x ∈ l, φ x = k) : l.Pairwise (fun a b => φ a ≤ φ b) := by
  induction l with
  | nil => exact List.Pairwise.nil
  | cons a t ih =>
    refine List.Pairwise.cons (fun y hy => ?_) (ih fun x hx => h x (List.mem_cons_of_mem _ hx))
    rw [h a (List.mem_cons_self _ _), h y (List.mem_cons_of_mem _ hy)]

/-- Gluing two phase-sorted lists with a separating bound. -/
theorem pairwise_phase_append {α : Type} (φ : α → Nat) {l₁ l₂ : List α} (k : Nat)
    (h₁ : l₁.Pairwise (fun a b => φ a ≤ φ b)) (h₂ : l₂.Pairwise (fun a b => φ a ≤ φ b))
    (hb₁ : ∀ x ∈ l₁, φ x ≤ k) (hb₂ : ∀ x ∈ l₂, k ≤ φ x) :
    (l₁ ++ l₂).Pairwise (fun a b => φ a ≤ φ b) :=
  List.pairwise_append.mpr ⟨h₁, h₂, fun x hx y hy => le_trans (hb₁ x hx) (hb₂ y hy)⟩

/-- In a phase-sorted list, an event of strictly smaller phase sits at a
strictly smaller index. -/
theorem index_lt_of_phase_lt {α : Type} (φ : α → Nat) {l : List α}
    (hsort : l.Pairwise (fun a b => φ a ≤ φ b))
    (i j : Fin l.length) (hφ : φ (l.get i) < φ (l.get j)) : (i : Nat) < (j : Nat) := by
  rcases lt_trichotomy (i : Nat) (j : Nat) with h | h | h
  · exact h
  · exact absurd hφ (by rw [Fin.ext h]; exact lt_irrefl _)
  · have := List.pairwise_iff_get.mp hsort j i (by exact h)
    omega

/-- Combining pointwise facts over an append. -/
theorem forall_mem_append {α : Type} {P : α → Prop} {l₁ l₂ : List α}
    (h₁ : ∀ x ∈ l₁, P x) (h₂ : ∀ x ∈ l₂, P x) : ∀ x ∈ l₁ ++ l₂, P x := by
  intro x hx
  rcases List.mem_append.mp hx with hx | hx
  · exact h₁ x hx
  · exact h₂ x hx

theorem startOptionalComponents_sorted (s : RedisPipelineBootstrap) :
    (startOptionalComponents s).Pairwise (fun a b => startupPhase a ≤ startupPhase b) := by
  have hA : ∀ x ∈ (if s.databaseManager then [Event.databaseManagerStart] else []),
      startupPhase x = 0 := by
    intro x hx; split at hx <;> simp_all [startupPhase]
  have hB : ∀ x ∈ s.scheduledTaskQueueMap.map Event.taskQueueStart, startupPhase x = 1 := by
    intro x hx; obtain ⟨a, -, rfl⟩ := List.mem_map.mp hx; rfl
  have hC : ∀ x ∈ s.kafkaConsumers.map Event.consumerInit, startupPhase x = 2 := by
    intro x hx; obtain ⟨a, -, rfl⟩ := List.mem_map.mp hx; rfl
  have hD : ∀ x ∈ s.kafkaConsumers.map Event.consumerStart, startupPhase x = 3 := by
    intro x hx; obtain ⟨a, -, rfl⟩ := List.mem_map.mp hx; rfl
  have hE : ∀ x ∈ (if s.embeddedHttpServer then [Event.httpServerStart] else []),
      startupPhase x = 4 := by
    intro x hx; split at hx <;> simp_all [startupPhase]
  unfold startOptionalComponents
  refine pairwise_phase_append startupPhase 4
    ?_ (pairwise_phase_of_const _ _ 4 hE) ?_ (fun x hx => le_of_eq (hE x hx).symm)
  · refine pairwise_phase_append startupPhase 3
      ?_ (pairwise_phase_of_const _ _ 3 hD) ?_ (fun x hx => le_of_eq (hD x hx).symm)
    · refine pairwise_phase_append startupPhase 2
        ?_ (pairwise_phase_of_const _ _ 2 hC) ?_ (fun x hx => le_of_eq (hC x hx).symm)
      · exact pairwise_phase_append startupPhase 1
          (pairwise_phase_of_const _ _ 0 hA) (pairwise_phase_of_const _ _ 1 hB)
          (fun x hx => by rw [hA x hx]; omega) (fun x hx => le_of_eq (hB x hx).symm)
      · exact forall_mem_append (fun x hx => by rw [hA x hx]; omega)
          (fun x hx => by rw [hB x hx]; omega)
    · exact forall_mem_append (forall_mem_append (fun x hx => by rw [hA x hx]; omega)
        (fun x hx => by rw [hB x hx]; omega)) (fun x hx => by rw [hC x hx]; omega)
  · exact forall_mem_append (forall_mem_append (forall_mem_append
      (fun x hx => by rw [hA x hx]; omega) (fun x hx => by rw [hB x hx]; omega))
      (fun x hx => by rw [hC x hx]; omega)) (fun x hx => by rw [hD x hx]; omega)

theorem shutdownSequence_sorted (s : RedisPipelineBootstrap) :
    (shutdownSequence s).Pairwise (fun a b => shutdownPhase a ≤ shutdownPhase b) := by
  have hA : ∀ x ∈ (if s.embeddedHttpServer then [Event.httpServerDestroy] else []),
      shutdownPhase x = 0 := by
    intro x hx; split at hx <;> simp_all [shutdownPhase]
  have hB : ∀ x ∈ s.kafkaConsumers.map Event.consumerStop, shutdownPhase x = 1 := by
    intro x hx; obtain ⟨a, -, rfl⟩ := List.mem_map.mp hx; rfl
  have hC : ∀ x ∈ s.kafkaConsumers.map Event.consumerDestroy, shutdownPhase x = 2 := by
    intro x hx; obtain ⟨a, -, rfl⟩ := List.mem_map.mp hx; rfl
  have hD : ∀ x ∈ s.scheduledTaskQueueMap.map Event.taskQueueDestroy, shutdownPhase x = 3 := by
    intro x hx; obtain ⟨a, -, rfl⟩ := List.mem_map.mp hx; rfl
  have hE : ∀ x ∈ s.kafkaProducers.filterMap
      (fun e => e.2.map fun _ => Event.producerDestroy e.1), shutdownPhase x = 4 := by
    intro x hx
    obtain ⟨⟨t, p⟩, -, ha⟩ := List.mem_filterMap.mp hx
    cases p
    · simp at ha
    · simp only [Option.map_some'] at ha
      injection ha with h
      rw [← h]
      rfl
  have hF : ∀ x ∈ (if s.databaseManager then [Event.databaseManagerDestroy] else []),
      shutdownPhase x = 5 := by
    intro x hx; split at hx <;> simp_all [shutdownPhase]
  have hG : ∀ x ∈ s.columnFamilyMap.map (fun e => Event.columnFamilyHandleDestroy e.1),
      shutdownPhase x = 6 := by
    intro x hx; obtain ⟨a, -, rfl⟩ := List.mem_map.mp hx; rfl
  have hH : ∀ x ∈ [Event.rocksDbDelete], shutdownPhase x = 7 := by
    intro x hx; simp_all [shutdownPhase]
  have hStop : ∀ x ∈ stopOptionalComponents s, shutdownPhase x ≤ 5 := by
    unfold stopOptionalComponents
    exact forall_mem_append (forall_mem_append (forall_mem_append (forall_mem_append
      (forall_mem_append (fun x hx => by rw [hA x hx]; omega)
        (fun x hx => by rw [hB x hx]; omega)) (fun x hx => by rw [hC x hx]; omega))
      (fun x hx => by rw [hD x hx]; omega)) (fun x hx => by rw [hE x hx]; omega))
      (fun x hx => le_of_eq (hF x hx))
  have hRocks : ∀ x ∈ stopRocksDb s, 6 ≤ shutdownPhase x := by
    unfold stopRocksDb
    exact forall_mem_append (fun x hx => le_of_eq (hG x hx).symm)
      (fun x hx => by rw [hH x hx]; omega)
  unfold shutdownSequence
  refine pairwise_phase_append shutdownPhase 6 ?_ ?_
    (fun x hx => Nat.le_trans (hStop x hx) (by omega)) hRocks
  · unfold stopOptionalComponents
    refine pairwise_phase_append shutdownPhase 5
      ?_ (pairwise_phase_of_const _ _ 5 hF) ?_ (fun x hx => le_of_eq (hF x hx).symm)
    · refine pairwise_phase_append shutdownPhase 4
        ?_ (pairwise_phase_of_const _ _ 4 hE) ?_ (fun x hx => le_of_eq (hE x hx).symm)
      · refine pairwise_phase_append shutdownPhase 3
          ?_ (pairwise_phase_of_const _ _ 3 hD) ?_ (fun x hx => le_of_eq (hD x hx).symm)
        · exact pairwise_phase_append shutdownPhase 2
            (pairwise_phase_append shutdownPhase 1 (pairwise_phase_of_const _ _ 0 hA)
              (pairwise_phase_of_const _ _ 1 hB) (fun x hx => by rw [hA x hx]; omega)
              (fun x hx => le_of_eq (hB x hx).symm))
            (pairwise_phase_of_const _ _ 2 hC)
            (forall_mem_append (fun x hx => by rw [hA x hx]; omega)
              (fun x hx => by rw [hB x hx]; omega))
            (fun x hx => le_of_eq (hC x hx).symm)
        · exact forall_mem_append (forall_mem_append (fun x hx => by rw [hA x hx]; omega)
            (fun x hx => by rw [hB x hx]; omega)) (fun x hx => by rw [hC x hx]; omega)
      · exact forall_mem_append (forall_mem_append (forall_mem_append
          (fun x hx => by rw [hA x hx]; omega) (fun x hx => by rw [hB x hx]; omega))
          (fun x hx => by rw [hC x hx]; omega)) (fun x hx => by rw [hD x hx]; omega)
    · exact forall_mem_append (forall_mem_append (forall_mem_append (forall_mem_append
        (fun x hx => by rw [hA x hx]; omega) (fun x hx => by rw [hB x hx]; omega))
        (fun x hx => by rw [hC x hx]; omega)) (fun x hx => by rw [hD x hx]; omega))
        (fun x hx => by rw [hE x hx]; omega)
  · unfold stopRocksDb
    exact pairwise_phase_append shutdownPhase 7 (pairwise_phase_of_const _ _ 6 hG)
      (pairwise_phase_of_const _ _ 7 hH) (fun x hx => by rw [hG x hx]; omega)
      (fun x hx => le_of_eq (hH x hx).symm)

/-- A fully populated bootstrap state used to instantiate the lifecycle
theorems at concrete inputs. -/
def sampleBootstrap : RedisPipelineBootstrap :=
  { databaseManager := true, scheduledTaskQueueMap := ["q"], kafkaConsumers := [4, 5],
    kafkaProducers := [("t", some 0)], embeddedHttpServer := true,
    columnFamilyMap := [("cf", 0)], server := some 9, serverEvents := [] }

/-- C2: in the `startOptionalComponents` trace, every consumer `init`
(verification) call occurs strictly before every consumer `start` call, so no
consumer event loop starts until the whole cohort has verified. -/
theorem consumer_init_before_any_consumer_start (s : RedisPipelineBootstrap)
    (i j : Fin (startOptionalComponents s).length) (a b : Nat)
    (hi : (startOptionalComponents s).get i = Event.consumerInit a)
    (hj : (startOptionalComponents s).get j = Event.consumerStart b) :
    (i : Nat) < (j : Nat) := by
  refine index_lt_of_phase_lt startupPhase (startOptionalComponents_sorted s) i j ?_
  rw [hi, hj]
  simp [startupPhase]

/-- Witness for C2: in the concrete startup trace of `sampleBootstrap`, the
`init` of consumer 5 (index 3) precedes the `start` of consumer 4 (index 4). -/
theorem consumer_init_before_any_consumer_start_witness :
    (startOptionalComponents sampleBootstrap).get ⟨3, by decide⟩ = Event.consumerInit 5 ∧
      (3 : Nat) < 4 :=
  ⟨by decide, consumer_init_before_any_consumer_start sampleBootstrap ⟨3, by decide⟩
    ⟨4, by decide⟩ 5 4 (by decide) (by decide)⟩

/-- C3: the shutdown trace is sorted by teardown phase (HTTP endpoint destroy,
then consumer stops, then consumer destroys, then task-queue destroys, then
producer destroys, then database-manager destroy, then column-family handle
destroys, then the engine delete), and every configured component receives its
teardown call. -/
theorem shutdown_teardown_order (s : RedisPipelineBootstrap) :
    (shutdownSequence s).Pairwise (fun a b => shutdownPhase a ≤ shutdownPhase b)
    ∧ (s.embeddedHttpServer = true → Event.httpServerDestroy ∈ shutdownSequence s)
    ∧ (∀ c ∈ s.kafkaConsumers,
        Event.consumerStop c ∈ shutdownSequence s ∧ Event.consumerDestroy c ∈ shutdownSequence s)
    ∧ (∀ q ∈ s.scheduledTaskQueueMap, Event.taskQueueDestroy q ∈ shutdownSequence s)
    ∧ (∀ t p, (t, some p) ∈ s.kafkaProducers → Event.producerDestroy t ∈ shutdownSequence s)
    ∧ (s.databaseManager = true → Event.databaseManagerDestroy ∈ shutdownSequence s)
    ∧ (∀ n h, (n, h) ∈ s.columnFamilyMap →
        Event.columnFamilyHandleDestroy n ∈ shutdownSequence s)
    ∧ Event.rocksDbDelete ∈ shutdownSequence s := by
  refine ⟨shutdownSequence_sorted s, ?_, ?_, ?_, ?_, ?_, ?_, ?_⟩ <;>
    simp only [shutdownSequence, stopOptionalComponents, stopRocksDb, List.mem_append]
  · intro h
    exact Or.inl (Or.inl (Or.inl (Or.inl (Or.inl (Or.inl (by simp [h]))))))
  · intro c hc
    constructor
    · exact Or.inl (Or.inl (Or.inl (Or.inl (Or.inl (Or.inr
        (List.mem_map_of_mem Event.consumerStop hc))))))
    · exact Or.inl (Or.inl (Or.inl (Or.inl (Or.inr
        (List.mem_map_of_mem Event.consumerDestroy hc)))))
  · intro q hq
    exact Or.inl (Or.inl (Or.inl (Or.inr (List.mem_map_of_mem Event.taskQueueDestroy hq))))
  · intro t p htp
    refine Or.inl (Or.inl (Or.inr (List.mem_filterMap.mpr ⟨(t, some p), htp, rfl⟩)))
  · intro h
    exact Or.inl (Or.inr (by simp [h]))
  · intro n h hnh
    exact Or.inr (Or.inl (List.mem_map.mpr ⟨(n, h), hnh, rfl⟩))
  · exact Or.inr (Or.inr (List.mem_singleton.mpr rfl))

/-- Witness for C3: at `sampleBootstrap`, consumer 4 receives a stop call and
producer "t" receives a destroy call during shutdown. -/
theorem shutdown_teardown_order_witness :
    Event.consumerStop 4 ∈ shutdownSequence sampleBootstrap ∧
      Event.producerDestroy "t" ∈ shutdownSequence sampleBootstrap :=
  ⟨((shutdown_teardown_order sampleBootstrap).2.2.1 4 (by decide)).1,
   (shutdown_teardown_order sampleBootstrap).2.2.2.2.1 "t" 0 (by decide)⟩

/-- Events emitted by `stopOptionalComponents`: teardown of message-bus,
task-queue, endpoint and database-manager components. -/
def isComponentTeardown : Event → Bool
  | .httpServerDestroy => true
  | .consumerStop _ => true
  | .consumerDestroy _ => true
  | .taskQueueDestroy _ => true
  | .producerDestroy _ => true
  | .databaseManagerDestroy => true
  | _ => false

/-- Events emitted by `stopRocksDb`: column-family handle destruction and the
final engine delete. -/
def isEngineClose : Event → Bool
  | .columnFamilyHandleDestroy _ => true
  | .rocksDbDelete => true
  | _ => false

theorem shutdownPhase_le_of_isComponentTeardown (x : Event)
    (h : isComponentTeardown x = true) : shutdownPhase x ≤ 5 := by
  cases x <;> simp_all [isComponentTeardown, shutdownPhase]

theorem six_le_shutdownPhase_of_isEngineClose (x : Event)
    (h : isEngineClose x = true) : 6 ≤ shutdownPhase x := by
  cases x <;> simp_all [isEngineClose, shutdownPhase]

/-- C8: the engine-close operation is last — every component teardown call
(endpoint, consumer stop/destroy, task queue, producer, database manager)
precedes every engine-close call in the shutdown trace — and within
`stopRocksDb` every column-family handle destroy precedes the engine delete,
and every column family in the map gets its handle destroyed. -/
theorem stopRocksDb_last_storage_operation (s : RedisPipelineBootstrap)
    (i j : Fin (shutdownSequence s).length) :
    (isComponentTeardown ((shutdownSequence s).get i) = true →
      isEngineClose ((shutdownSequence s).get j) = true → (i : Nat) < (j : Nat))
    ∧ (∀ n, (shutdownSequence s).get i = Event.columnFamilyHandleDestroy n →
        (shutdownSequence s).get j = Event.rocksDbDelete → (i : Nat) < (j : Nat))
    ∧ (∀ n h, (n, h) ∈ s.columnFamilyMap →
        Event.columnFamilyHandleDestroy n ∈ shutdownSequence s) := by
  refine ⟨?_, ?_, ?_⟩
  · intro hi hj
    refine index_lt_of_phase_lt shutdownPhase (shutdownSequence_sorted s) i j ?_
    have h₁ := shutdownPhase_le_of_isComponentTeardown _ hi
    have h₂ := six_le_shutdownPhase_of_isEngineClose _ hj
    omega
  · intro n hi hj
    refine index_lt_of_phase_lt shutdownPhase (shutdownSequence_sorted s) i j ?_
    rw [hi, hj]
    simp [shutdownPhase]
  · intro n h hnh
    simp only [shutdownSequence, stopRocksDb, List.mem_append]
    exact Or.inr (Or.inl (List.mem_map.mpr ⟨(n, h), hnh, rfl⟩))

/-- Witness for C8: in the concrete shutdown trace of `sampleBootstrap`, the
database-manager destroy (index 7) precedes the column-family handle destroy
(index 8), which precedes the engine delete (index 9). -/
theorem stopRocksDb_last_storage_operation_witness :
    (shutdownSequence sampleBootstrap).get ⟨8, by decide⟩ =
        Event.columnFamilyHandleDestroy "cf" ∧ (7 : Nat) < 8 ∧ (8 : Nat) < 9 :=
  ⟨by decide,
   (stopRocksDb_last_storage_operation sampleBootstrap ⟨7, by decide⟩ ⟨8, by decide⟩).1
     (by decide) (by decide),
   (stopRocksDb_last_storage_operation sampleBootstrap ⟨8, by decide⟩ ⟨9, by decide⟩).2.1
     "cf" (by decide) (by decide)⟩

/-! ## stopServer (lines 255-263) -/

/-- `stopServer`: when a server exists, stop it, join it and null the pointer
(the object is deliberately not deleted); when the pointer is already null,
do nothing. -/
def stopServer (s : RedisPipelineBootstrap) : RedisPipelineBootstrap :=
  match s.server with
  | some srv =>
      { s with server := none,
               serverEvents := s.serverEvents ++ [Event.serverStop srv, Event.serverJoin srv] }
  | none => s

/-- C10: `stopServer` is idempotent — the first call on a live server stops
and joins it exactly once and nulls the pointer, and any further call leaves
the state unchanged, so a server is never stopped or joined twice. -/
theorem stopServer_idempotent (s : RedisPipelineBootstrap) :
    stopServer (stopServer s) = stopServer s
    ∧ (∀ srv, s.server = some srv →
        stopServer s =
          { s with
            server := none,
            serverEvents := s.serverEvents ++ [Event.serverStop srv, Event.serverJoin srv] })
    ∧ (s.server = none → stopServer s = s) := by
  refine ⟨?_, ?_, ?_⟩
  · cases h : s.server <;> simp [stopServer, h]
  · intro srv h
    simp [stopServer, h]
  · intro h
    simp [stopServer, h]

/-- Witness for C10: stopping `sampleBootstrap` (whose server is `some 9`)
stops and joins server 9 once and nulls the pointer. -/
theorem stopServer_idempotent_witness :
    stopServer sampleBootstrap =
      { sampleBootstrap with
        server := none,
        serverEvents := [Event.serverStop 9, Event.serverJoin 9] } :=
  (stopServer_idempotent sampleBootstrap).2.1 9 rfl

/-! ## Migration gate (lines 289-295)

`kMaxVersionTimestampAgeMs` is in the header; the body of
`canApplyOneOffFlags` is in the missing translation unit. -/

/-- The 30-minute staleness bound (line 289): `30 * 60 * 1000` ms. -/
def kMaxVersionTimestampAgeMs : Int := 30 * 60 * 1000

/-- Modelled from the spec: the body of `canApplyOneOffFlags` (declared at
line 295) is in the missing `RedisPipelineBootstrap.cpp`.  Spec section 4.3:
the one-off migration may run only if (a) the persisted version timestamp has
not already advanced to or past the target and (b) the wall-clock distance
between now and the target timestamp does not exceed the staleness bound. -/
def canApplyOneOffFlags (persistedMs targetMs nowMs : Int) : Bool :=
  decide (persistedMs < targetMs) &&
    decide (|nowMs - targetMs| ≤ kMaxVersionTimestampAgeMs)

/-- C4: the gate permits exactly when the persisted timestamp has not reached
the target and now is within 30 minutes (1,800,000 ms) of the target; once
the target itself is persisted a repeated check against it denies, and more
than 30 minutes past the target the gate denies whatever was persisted. -/
theorem canApplyOneOffFlags_gate (persistedMs targetMs nowMs : Int) :
    (canApplyOneOffFlags persistedMs targetMs nowMs = true ↔
      persistedMs < targetMs ∧ |nowMs - targetMs| ≤ 1800000)
    ∧ canApplyOneOffFlags targetMs targetMs nowMs = false
    ∧ (1800000 < nowMs - targetMs →
        canApplyOneOffFlags persistedMs targetMs nowMs = false) := by
  refine ⟨?_, ?_, ?_⟩
  · norm_num [canApplyOneOffFlags, kMaxVersionTimestampAgeMs]
  · simp [canApplyOneOffFlags]
  · intro h
    have hb : ¬ |nowMs - targetMs| ≤ kMaxVersionTimestampAgeMs := by
      rw [abs_le]
      unfold kMaxVersionTimestampAgeMs
      omega
    simp [canApplyOneOffFlags, hb]

/-- Witness for C4, following the spec's end-to-end scenario: with persisted
1000 and target 2000, a check 10 minutes past the target permits and a check
40 minutes past the target denies. -/
theorem canApplyOneOffFlags_gate_witness :
    canApplyOneOffFlags 1000 2000 (2000 + 10 * 60 * 1000) = true ∧
      canApplyOneOffFlags 1000 2000 (2000 + 40 * 60 * 1000) = false :=
  ⟨(canApplyOneOffFlags_gate 1000 2000 (2000 + 10 * 60 * 1000)).1.mpr (by decide),
   (canApplyOneOffFlags_gate 1000 2000 (2000 + 40 * 60 * 1000)).2.2 (by decide)⟩

/-! ## Producer and column-family lookups (lines 170-173 and 270-273) -/

/-- In an association list with duplicate-free keys, `find?` on a present key
returns exactly the stored entry. -/
theorem find?_eq_some_of_mem_of_nodup {β : Type} :
    ∀ (m : List (String × β)), (m.map Prod.fst).Nodup →
      ∀ (name : String) (v : β), (name, v) ∈ m →
        m.find? (fun e => e.1 == name) = some (name, v) := by
  intro m
  induction m with
  | nil => intro _ name v h; cases h
  | cons a t ih =>
    intro hnd name v hmem
    have hnd' := List.nodup_cons.mp (show (a.1 :: t.map Prod.fst).Nodup from hnd)
    rcases List.mem_cons.mp hmem with h | h
    · rw [← h]
      simp
    · have hne : a.1 ≠ name := fun he =>
        hnd'.1 (he ▸ List.mem_map.mpr ⟨(name, v), h, rfl⟩)
      rw [List.find?_cons_of_neg _ (by simpa using hne)]
      exact ih hnd'.2 name v h

/-- `getKafkaProducer` (lines 170-173): look the name up in the producer map;
an absent key yields an empty `shared_ptr` (`none`) rather than a failure. -/
def getKafkaProducer (kafkaProducers : List (String × Option Nat)) (name : String) : Option Nat :=
  match kafkaProducers.find? (fun e => e.1 == name) with
  | none => none
  | some e => e.2

/-- C6: `getKafkaProducer` never aborts — an unconfigured name returns an
absent (`none`) result — and with producers keyed 1:1 by canonical topic name
every lookup of a configured topic returns exactly the stored instance, so
repeated calls yield the same producer. -/
theorem getKafkaProducer_absent_or_unique (m : List (String × Option Nat)) (name : String) :
    (name ∉ m.map Prod.fst → getKafkaProducer m name = none)
    ∧ ((m.map Prod.fst).Nodup → ∀ p, (name, p) ∈ m → getKafkaProducer m name = p) := by
  constructor
  · intro h
    have hfind : m.find? (fun e => e.1 == name) = none := by
      rw [List.find?_eq_none]
      intro e he hbeq
      exact h (List.mem_map.mpr ⟨e, he, by simpa using hbeq⟩)
    simp [getKafkaProducer, hfind]
  · intro hnd p hmem
    simp [getKafkaProducer, find?_eq_some_of_mem_of_nodup m hnd name p hmem]

/-- Witness for C6: an unconfigured topic gives `none`; topic "b" gives its
stored producer both times the code would ask. -/
theorem getKafkaProducer_absent_or_unique_witness :
    getKafkaProducer [("a", some 1), ("b", some 2)] "c" = none ∧
      getKafkaProducer [("a", some 1), ("b", some 2)] "b" = some 2 :=
  ⟨(getKafkaProducer_absent_or_unique [("a", some 1), ("b", some 2)] "c").1 (by decide),
   (getKafkaProducer_absent_or_unique [("a", some 1), ("b", some 2)] "b").2 (by decide)
     (some 2) (by decide)⟩

/-- `operator[]` of `std::unordered_map` applied to the column-family map:
returns the mapped value, default-inserting a value-initialized entry (`0`
standing for a null handle) when the key is missing. -/
def columnFamilyMapSubscript (m : List (String × Nat)) (name : String) :
    Nat × List (String × Nat) :=
  match m.find? (fun e => e.1 == name) with
  | some e => (e.2, m)
  | none => (0, m ++ [(name, 0)])

/-- `getColumnFamily` (lines 270-273): `CHECK_GT(columnFamilyMap_.count(name), 0)`
aborts the process (modelled as `none`) when the name is not configured;
otherwise `columnFamilyMap_[name]` returns the stored handle. -/
def getColumnFamily (m : List (String × Nat)) (name : String) :
    Option (Nat × List (String × Nat)) :=
  if 0 < m.countP (fun e => e.1 == name) then some (columnFamilyMapSubscript m name)
  else none

/-- C7: a configured name returns the stored handle and leaves the map
unchanged; an unconfigured name makes the process abort (fatal `CHECK`)
instead of returning any handle. -/
theorem getColumnFamily_contract (m : List (String × Nat)) (name : String) :
    ((m.map Prod.fst).Nodup → ∀ h, (name, h) ∈ m → getColumnFamily m name = some (h, m))
    ∧ (name ∉ m.map Prod.fst → getColumnFamily m name = none) := by
  constructor
  · intro hnd h hmem
    have hfind := find?_eq_some_of_mem_of_nodup m hnd name h hmem
    have hcount : 0 < m.countP (fun e => e.1 == name) :=
      List.countP_pos_iff.mpr ⟨(name, h), hmem, by simp⟩
    simp [getColumnFamily, hcount, columnFamilyMapSubscript, hfind]
  · intro habs
    have hcount : ¬ 0 < m.countP (fun e => e.1 == name) := by
      rw [List.countP_pos_iff]
      rintro ⟨e, he, hbeq⟩
      exact habs (List.mem_map.mpr ⟨e, he, by simpa using hbeq⟩)
    simp [getColumnFamily, hcount]

/-- Witness for C7: looking up a configured column family returns its handle
with the map intact; an unknown name aborts. -/
theorem getColumnFamily_contract_witness :
    getColumnFamily [("default", 11), ("smyte-metadata", 12)] "smyte-metadata" =
        some (12, [("default", 11), ("smyte-metadata", 12)]) ∧
      getColumnFamily [("default", 11), ("smyte-metadata", 12)] "absent" = none :=
  ⟨(getColumnFamily_contract [("default", 11), ("smyte-metadata", 12)] "smyte-metadata").1
      (by decide) 12 (by decide),
   (getColumnFamily_contract [("default", 11), ("smyte-metadata", 12)] "absent").2 (by decide)⟩

/-! ## Column-family group naming (lines 140-142 and 276-308)

The names are produced by decimal formatting of the local shard index.
Distinctness of the generated names rests on injectivity of `Nat.repr`,
proved here by decoding the digit string back to the number. -/

/-- Numeric value of a decimal digit character. -/
def decodeDigit (c : Char) : Nat := c.toNat - 48

/-- Numeric value of a big-endian decimal digit string. -/
def decodeDigits (l : List Char) : Nat :=
  l.foldl (fun acc c => acc * 10 + decodeDigit c) 0

theorem decodeDigits_append_singleton (l : List Char) (c : Char) :
    decodeDigits (l ++ [c]) = decodeDigits l * 10 + decodeDigit c := by
  simp [decodeDigits, List.foldl_append]

theorem toDigitsCore_acc (f : Nat) : ∀ (n : Nat) (ds : List Char),
    Nat.toDigitsCore 10 f n ds = Nat.toDigitsCore 10 f n [] ++ ds := by
  induction f with
  | zero => intro n ds; simp [Nat.toDigitsCore]
  | succ f ih =>
    intro n ds
    simp only [Nat.toDigitsCore]
    by_cases h : n / 10 = 0
    · simp [h]
    · rw [if_neg h, if_neg h, ih (n / 10) (Nat.digitChar (n % 10) :: ds),
        ih (n / 10) [Nat.digitChar (n % 10)], List.append_assoc, List.singleton_append]

theorem decodeDigit_digitChar : ∀ d, d < 10 → decodeDigit (Nat.digitChar d) = d := by decide

theorem decodeDigits_toDigitsCore :
    ∀ f n, n < f → decodeDigits (Nat.toDigitsCore 10 f n []) = n := by
  intro f
  induction f with
  | zero => intro n hn; omega
  | succ f ih =>
    intro n hn
    simp only [Nat.toDigitsCore]
    by_cases h : n / 10 = 0
    · rw [if_pos h]
      have hv : decodeDigits [Nat.digitChar (n % 10)] = decodeDigit (Nat.digitChar (n % 10)) := by
        simp [decodeDigits]
      rw [hv, decodeDigit_digitChar (n % 10) (by omega)]
      omega
    · rw [if_neg h, toDigitsCore_acc, decodeDigits_append_singleton,
        ih (n / 10) (by omega), decodeDigit_digitChar (n % 10) (by omega)]
      omega

theorem decodeDigits_repr (n : Nat) : decodeDigits (Nat.repr n).data = n :=
  decodeDigits_toDigitsCore (n + 1) n (Nat.lt_succ_self n)

theorem nat_repr_injective : Function.Injective Nat.repr := by
  intro m n h
  have hd : (Nat.repr m).data = (Nat.repr n).data := by rw [h]
  have hv := congrArg decodeDigits hd
  rwa [decodeDigits_repr, decodeDigits_repr] at hv

/-- `getColumnFamilyNameInGroup` (lines 140-142):
`folly::sformat("{}-{}", groupName, index)` — the group name, a dash, and the
decimal rendering of the (nonnegative local shard) index. -/
def getColumnFamilyNameInGroup (groupName : String) (index : Nat) : String :=
  groupName ++ "-" ++ Nat.repr index

/-- `RocksDbColumnFamilyGroupConfig` (lines 276-285). -/
structure RocksDbColumnFamilyGroupConfig where
  startShardIndex : Int
  localVirtualShardCount : Int
  shardIndexIncrement : Int
  deriving DecidableEq, Repr

/-- Modelled from the spec: the body of `processRocksDbColumnFamilyGroup`
(declared at lines 307-308) is in the missing `RedisPipelineBootstrap.cpp`.
Spec sections 4.1 and 8: resolving a group invokes the visitor once per local
index in ascending order, and the group `alpha` with `(start=0, count=3,
increment=2)` yields the names `alpha-0, alpha-1, alpha-2`; the callback thus
receives `getColumnFamilyNameInGroup groupName i` for `i = 0 .. n-1` where
`n` is `localVirtualShardCount`. -/
def processRocksDbColumnFamilyGroup (groupName : String)
    (groupConfig : RocksDbColumnFamilyGroupConfig) : List String :=
  (List.range groupConfig.localVirtualShardCount.toNat).map
    (getColumnFamilyNameInGroup groupName)

theorem getColumnFamilyNameInGroup_injective (groupName : String) :
    Function.Injective (getColumnFamilyNameInGroup groupName) := by
  intro i j h
  apply nat_repr_injective
  have hd := congrArg String.data h
  simp only [getColumnFamilyNameInGroup, String.data_append] at hd
  exact String.ext (List.append_cancel_left hd)

/-- C5: resolving a group with `localVirtualShardCount = n` yields exactly
`n` partition names, all distinct, the i-th being determined by
`(groupName, i)` alone; in particular the group `alpha` with
`(start=0, count=3, increment=2)` yields `alpha-0, alpha-1, alpha-2`. -/
theorem processRocksDbColumnFamilyGroup_names (groupName : String)
    (groupConfig : RocksDbColumnFamilyGroupConfig) :
    (processRocksDbColumnFamilyGroup groupName groupConfig).length =
        groupConfig.localVirtualShardCount.toNat
    ∧ (processRocksDbColumnFamilyGroup groupName groupConfig).Nodup
    ∧ (∀ i : Fin (processRocksDbColumnFamilyGroup groupName groupConfig).length,
        (processRocksDbColumnFamilyGroup groupName groupConfig).get i =
          getColumnFamilyNameInGroup groupName (i : Nat))
    ∧ processRocksDbColumnFamilyGroup "alpha" ⟨0, 3, 2⟩ =
        ["alpha-0", "alpha-1", "alpha-2"] := by
  refine ⟨?_, ?_, ?_, ?_⟩
  · simp [processRocksDbColumnFamilyGroup]
  · exact (List.nodup_range _).map (getColumnFamilyNameInGroup_injective groupName)
  · intro i
    simp [processRocksDbColumnFamilyGroup]
  · decide

end SmyteDb
